import Mathlib

/-!
Verification of the hierarchical section retrieval and rendering engine of the
3gpp-chatbox FastAPI service.

The development shallowly embeds the two modules that carry the algorithmic
content of the service:

* `src/db/sections_content_retrieval.py` — the orchestrator
  `get_sections_content` together with the two SQL queries it issues
  (`path_fetch_query`, the pattern-matching stage built on `ILIKE`, and
  `content_fetch_query`, the ltree subtree expansion with `ORDER BY path`);
* `src/lib/generate_markdown.py` — the pure markdown renderer.

Database state is modelled as explicit lists of rows.  PostgreSQL `ltree`
paths are modelled structurally as lists of segment labels (`List Nat`): the
`<@` operator is the segment-prefix test and `ORDER BY path` is the
lexicographic segment order, both per the documented ltree semantics.
`ILIKE` is modelled by a complete `LIKE`-pattern matcher (with `%`, `_` and
the default backslash escape) over case-folded character lists.  Python
exceptions are modelled by an explicit error value recording the exception
type name, the message (`str(e)`) and the `__cause__` chain set by
`raise ... from e`.
-/

/-- Model of a Python exception object: type name, message and the
`__cause__` set by `raise ... from e`. -/
inductive PyErr where
  | mk (typeName : String) (msg : String) (cause : Option PyErr)

/-- The message of an exception, i.e. Python `str(e)`. -/
def PyErr.msg : PyErr → String
  | .mk _ m _ => m

/-- The type name of an exception (`ValueError`, `Exception`, ...). -/
def PyErr.typeName : PyErr → String
  | .mk t _ _ => t

/-- The `__cause__` of an exception. -/
def PyErr.cause : PyErr → Option PyErr
  | .mk _ _ c => c

/-- A value handed to `get_sections_content` inside `section_list`: either a
Python `str` or a value of any other type (only `isinstance(·, str)` is ever
inspected). -/
inductive PyVal where
  | str (s : String)
  | nonStr
deriving DecidableEq

/-- Python `isinstance(v, str)`. -/
def PyVal.isStr : PyVal → Bool
  | .str _ => true
  | .nonStr => false

/-- The underlying string of a `str` value (only used after validation). -/
def PyVal.asStr : PyVal → String
  | .str s => s
  | .nonStr => ""

/-- An ltree path: the list of segment labels from the root. -/
abbrev SectionPath := List Nat

/-- The ltree operator `candidate <@ ancestor` ("is descendant or self"):
the ancestor label sequence is a prefix of the candidate label sequence. -/
def isDescendantOrSelf (candidate ancestor : SectionPath) : Bool :=
  ancestor.isPrefixOf candidate

/-- Strict ltree path order used by `ORDER BY path`: lexicographic on the
segment sequences, with a proper prefix ordered before its extensions. -/
def pathLtB : SectionPath → SectionPath → Bool
  | _, [] => false
  | [], _ :: _ => true
  | x :: xs, y :: ys => x < y || (x == y && pathLtB xs ys)

/-- Reflexive ltree path order. -/
def pathLeB (p q : SectionPath) : Bool := pathLtB p q || p == q

/-- Python `str.strip` whitespace test (space, tab, newline, carriage
return, vertical tab, form feed). -/
def pyIsSpace (c : Char) : Bool :=
  c = ' ' || c = '\t' || c = '\n' || c = '\r' || c = '\x0b' || c = '\x0c'

/-- Python `str.strip()`: drop leading and trailing whitespace. -/
def pyStrip (s : String) : String :=
  String.mk (((s.toList.dropWhile pyIsSpace).reverse.dropWhile pyIsSpace).reverse)

/-- Python `sep.join(xs)`. -/
def pyJoin (sep : String) : List String → String
  | [] => ""
  | [x] => x
  | x :: xs => x ++ sep ++ pyJoin sep xs

/-- Python `repr` of a string (as interpolated into f-strings via `{list}`). -/
def pyStrRepr (s : String) : String := "\x27" ++ s ++ "\x27"

/-- Python `str` of a list of strings, as produced by f-string interpolation. -/
def pyListRepr (l : List String) : String :=
  "[" ++ pyJoin ", " (l.map pyStrRepr) ++ "]"

/-- One step of the PostgreSQL `LIKE` matcher over already case-folded
character lists, with explicit fuel (the recursion decreases the combined
length of pattern and subject, so `length p + length s + 1` fuel always
suffices).  `%` matches any sequence, `_` any single character, and the
default escape `\x5c` forces the next pattern character to be literal. -/
def likeAux : Nat → List Char → List Char → Bool
  | 0, _, _ => false
  | _ + 1, [], s => s.isEmpty
  | fuel + 1, c :: ps, [] =>
    if c = '%' then likeAux fuel ps []
    else false
  | fuel + 1, c :: ps, d :: s2 =>
    if c = '%' then likeAux fuel ps (d :: s2) || likeAux fuel (c :: ps) s2
    else if c = '_' then likeAux fuel ps s2
    else if c = '\\' then
      (match ps with
       | p2 :: ps2 => p2 == d && likeAux fuel ps2 s2
       | [] => c == d && likeAux fuel [] s2)
    else c == d && likeAux fuel ps s2

/-- PostgreSQL `LIKE` on case-folded character lists. -/
def likeMatches (p s : List Char) : Bool :=
  likeAux (p.length + s.length + 1) p s

/-- Case-fold a string to a character list (the case-insensitivity of
`ILIKE`). -/
def lowerStr (s : String) : List Char := s.toList.map Char.toLower

/-- The matching condition of `path_fetch_query` for one pattern:
`section.heading ILIKE pattern || ' %'` (file
`src/db/sections_content_retrieval.py`). -/
def headingMatchesPattern (heading pattern : String) : Bool :=
  likeMatches (lowerStr (pattern ++ " %")) (lowerStr heading)

/-- Follows the spec's words (§4.2): "a Section matches pattern `p` iff,
case-insensitively, `heading` begins with `p` followed by a single space
character."  Stated for comparison with `headingMatchesPattern`, the
relation the code actually implements. -/
def specTokenBoundaryMatch (heading pattern : String) : Bool :=
  (lowerStr pattern ++ [' ']).isPrefixOf (lowerStr heading)

/-- The case-folded pattern contains no `LIKE` metacharacter (`%`, `_`, or
the escape `\x5c`). -/
def noLikeMeta (pattern : String) : Bool :=
  (lowerStr pattern).all (fun c => !(c == '%' || c == '_' || c == '\\'))

/-- A row of the `section` table. -/
structure StoredSection where
  document_id : Nat
  heading : String
  level : Nat
  content : Option String
  path : SectionPath
deriving DecidableEq

/-- A row of the `document` table (the fields this core reads). -/
structure Document where
  id : Nat
  spec : String
  version : String
deriving DecidableEq

/-- The data store visible to `get_sections_content`. -/
structure Store where
  documents : List Document
  sections : List StoredSection

/-- Modelled from the spec: `get_document_by_id` lives in
`src/db/document.py`, which is not among the provided source files; §6 of
the spec describes it as `resolveDocument(id) -> Document | NotFound`. -/
def get_document_by_id (documents : List Document) (doc_id : Nat) :
    Option Document :=
  documents.find? (fun d => d.id == doc_id)

/-- The first query of `get_sections_content` (source name
`path_fetch_query`): all sections of the document whose heading matches at
least one pattern under `ILIKE pattern || ' %'` (`EXISTS` over
`unnest(patterns)`). -/
def path_fetch_query (secs : List StoredSection) (did : Nat)
    (patterns : List String) : List StoredSection :=
  secs.filter (fun s =>
    s.document_id == did && patterns.any (fun p => headingMatchesPattern s.heading p))

/-- The row order produced by `ORDER BY path`. -/
def rowle (x y : StoredSection) : Prop := pathLeB x.path y.path = true

instance : DecidableRel rowle := fun x y => instDecidableEqBool _ _

/-- The second query of `get_sections_content` (source name
`content_fetch_query`): all sections of the document whose path is a
descendant-or-self (`<@`) of any matched path, ordered by `ORDER BY path`. -/
def content_fetch_query (secs : List StoredSection) (did : Nat)
    (paths : List SectionPath) : List StoredSection :=
  List.insertionSort rowle
    (secs.filter (fun s =>
      s.document_id == did && paths.any (fun m => isDescendantOrSelf s.path m)))

/-- A row handed to `generate_markdown` (the projection selected by
`content_fetch_query`). -/
structure Row where
  heading : String
  level : Nat
  content : Option String
deriving DecidableEq

/-- The `AttributeError` Python raises for `None.strip()`. -/
def pyAttrErrNoneStrip : PyErr :=
  .mk "AttributeError" "\x27NoneType\x27 object has no attribute \x27strip\x27" none

/-- The markdown heading line of a section: `"#" * level + " " + heading`. -/
def mdHeading (level : Nat) (heading : String) : String :=
  String.mk (List.replicate level '#') ++ " " ++ heading

/-- The `for section in sections_content` loop of `generate_markdown`,
threading the accumulated `md_lines`.  A non-string (`None`) content raises
`AttributeError` at `content.strip()`. -/
def mdLinesLoop : List Row → List String → Except PyErr (List String)
  | [], acc => .ok acc
  | r :: rs, acc =>
    match r.content with
    | none => .error pyAttrErrNoneStrip
    | some c =>
      mdLinesLoop rs
        (if (pyStrip c).isEmpty then acc ++ [mdHeading r.level r.heading, ""]
         else acc ++ [mdHeading r.level r.heading, "", c, ""])

/-- `generate_markdown` of `src/lib/generate_markdown.py`: title line, blank
line, then the section loop; the joined lines are stripped, and any error in
the loop is wrapped as a generic `Exception` with the cause preserved. -/
def generate_markdown (doc_name : String) (sections_content : List Row) :
    Except PyErr String :=
  match mdLinesLoop sections_content ["# " ++ doc_name, ""] with
  | .error e =>
    .error (.mk "Exception"
      ("`_generate_markdown`: Failed to generate markdown: " ++ e.msg) (some e))
  | .ok lines => .ok (pyStrip (pyJoin "\n" lines))

/-- The body of the `try` block of `get_sections_content`: resolve the
document, run `path_fetch_query`, check non-emptiness, run
`content_fetch_query`, check non-emptiness, render. -/
def getSectionsContentBody (store : Store) (did : Nat)
    (patterns : List String) : Except PyErr String :=
  match get_document_by_id store.documents did with
  | none =>
    .error (.mk "ValueError"
      ("Document with ID \x27" ++ toString did ++ "\x27 not found in the database.")
      none)
  | some document =>
    let sections := path_fetch_query store.sections document.id patterns
    if sections.isEmpty then
      .error (.mk "ValueError"
        ("No sections found for document \x27" ++ document.spec ++ " " ++
          document.version ++ "\x27 with the given parameter: " ++
          pyListRepr patterns)
        none)
    else
      let sections_content :=
        content_fetch_query store.sections document.id (sections.map (·.path))
      if sections_content.isEmpty then
        .error (.mk "ValueError"
          ("Failed to perform hierarchical search for document \x27" ++
            document.spec ++ " " ++ document.version ++
            "\x27 with the given parameter: " ++ pyListRepr patterns)
          none)
      else
        generate_markdown document.spec
          (sections_content.map (fun s =>
            { heading := s.heading, level := s.level, content := s.content }))

/-- `get_sections_content` of `src/db/sections_content_retrieval.py`:
argument validation (before the `try` block, hence unwrapped), then the
body, with every error raised inside the `try` block re-raised as
`Exception(f"fetch_sections_content: Failed to retrieve sections: {str(e)}")`
with `from e` preserving the cause. -/
def get_sections_content (store : Store) (doc_id : Option Nat)
    (section_list : List PyVal) : Except PyErr String :=
  match doc_id with
  | none => .error (.mk "ValueError" "Missing required argument: doc_id" none)
  | some did =>
    if section_list.isEmpty then
      .error (.mk "ValueError" "Missing required argument: section_list" none)
    else if !(section_list.all PyVal.isStr) then
      .error (.mk "ValueError" "All section identifiers must be strings" none)
    else
      match getSectionsContentBody store did (section_list.map PyVal.asStr) with
      | .ok md => .ok md
      | .error e =>
        .error (.mk "Exception"
          ("fetch_sections_content: Failed to retrieve sections: " ++ e.msg)
          (some e))

/-- The error translation of the route
`get_latest_graph_by_procedure_id_and_entity`
(`src/routes/fetch_routes.py`): `except HTTPException: raise` re-raises
as-is, `except Exception` maps everything else to an HTTP 500
"Internal server error while fetching graph". -/
def routeTreatsAsInternalError (e : PyErr) : Bool :=
  e.typeName != "HTTPException"

/-- Substring occurrence test on character lists (used to state that an
unmatched section's content does not occur in the rendered output). -/
def containsSeq (needle : List Char) : List Char → Bool
  | [] => needle.isEmpty
  | c :: t => needle.isPrefixOf (c :: t) || containsSeq needle t

/-- The block of lines one section contributes to the rendered markdown:
its heading line, a blank line, and — when the content is non-empty after
trimming — the content exactly as stored followed by a blank line. -/
def sectionBlock (r : Row) : List String :=
  [mdHeading r.level r.heading, ""] ++
    (match r.content with
     | some c => if (pyStrip c).isEmpty then [] else [c, ""]
     | none => [])

/-- Follows the spec's words (§4.4 step 3): the per-section block with the
content TRIMMED before emission, as the spec prescribes.  Stated for
comparison with `sectionBlock`, the block the code actually emits. -/
def sectionBlockSpec (r : Row) : List String :=
  [mdHeading r.level r.heading, ""] ++
    (match r.content with
     | some c => if (pyStrip c).isEmpty then [] else [pyStrip c, ""]
     | none => [])

/-- Follows the spec's words (§4.4): the renderer whose sections emit
`sectionBlockSpec` blocks. -/
def generate_markdown_spec (doc_name : String) (rows : List Row) : String :=
  pyStrip (pyJoin "\n" (("# " ++ doc_name) :: "" :: rows.flatMap sectionBlockSpec))

/-- Section A of the spec's end-to-end scenario (§8). -/
def secA : StoredSection :=
  { document_id := 1, heading := "5.2 Random Access", level := 1,
    content := some "Intro text", path := [1] }

/-- Section A.1 of the spec's end-to-end scenario (§8). -/
def secA1 : StoredSection :=
  { document_id := 1, heading := "5.2.1 Contention", level := 2,
    content := some "Detail", path := [1, 1] }

/-- Section B of the spec's end-to-end scenario (§8). -/
def secB : StoredSection :=
  { document_id := 1, heading := "5.3 Other", level := 1,
    content := some "Unrelated", path := [2] }

/-- The section table of the spec's end-to-end scenario (§8). -/
def demoSections : List StoredSection := [secA, secA1, secB]

/-- The store of the spec's end-to-end scenario (§8): document "38.331"
with sections A, A.1 and B. -/
def demoStore : Store :=
  { documents := [{ id := 1, spec := "38.331", version := "1.0.0" }],
    sections := demoSections }

/-- A section row with a `NULL` content value. -/
def brokenSection : StoredSection :=
  { document_id := 1, heading := "5.2 Broken", level := 1,
    content := none, path := [1] }

/-- A store whose only section has a `NULL` content value. -/
def noneContentStore : Store :=
  { documents := [{ id := 1, spec := "38.331", version := "1.0.0" }],
    sections := [brokenSection] }

/-- A nested (level-2, depth-2) section whose heading matches an exact
pattern; used to show the matcher does not restrict itself to top-level
sections. -/
def nestedSection : StoredSection :=
  { document_id := 1, heading := "5.2.1 Contention", level := 2,
    content := some "Detail", path := [1, 1] }

/-! ### Theory of the `LIKE` matcher -/

theorem likeAux_mono : ∀ (f g : Nat) (p s : List Char),
    p.length + s.length < f → p.length + s.length < g →
    likeAux f p s = likeAux g p s := by
  intro f
  induction f with
  | zero => intro g p s hf _; exact absurd hf (Nat.not_lt_zero _)
  | succ f ih =>
    intro g p s hf hg
    cases g with
    | zero => exact absurd hg (Nat.not_lt_zero _)
    | succ g =>
      cases p with
      | nil => rfl
      | cons c ps =>
        cases s with
        | nil =>
          simp only [List.length_cons, List.length_nil] at hf hg
          have b1 : ps.length + ([] : List Char).length < f := by
            simp only [List.length_nil]; omega
          have b2 : ps.length + ([] : List Char).length < g := by
            simp only [List.length_nil]; omega
          simp only [likeAux]
          by_cases h1 : c = '%'
          · simp only [if_pos h1, ih g ps [] b1 b2]
          · simp only [if_neg h1]
        | cons d s2 =>
          simp only [List.length_cons] at hf hg
          have b1 : ps.length + (d :: s2).length < f := by
            simp only [List.length_cons]; omega
          have b2 : ps.length + (d :: s2).length < g := by
            simp only [List.length_cons]; omega
          have b3 : (c :: ps).length + s2.length < f := by
            simp only [List.length_cons]; omega
          have b4 : (c :: ps).length + s2.length < g := by
            simp only [List.length_cons]; omega
          have b5 : ps.length + s2.length < f := by omega
          have b6 : ps.length + s2.length < g := by omega
          simp only [likeAux]
          by_cases h1 : c = '%'
          · simp only [if_pos h1, ih g ps (d :: s2) b1 b2, ih g (c :: ps) s2 b3 b4]
          · simp only [if_neg h1]
            by_cases h2 : c = '_'
            · simp only [if_pos h2, ih g ps s2 b5 b6]
            · simp only [if_neg h2]
              by_cases h3 : c = '\\'
              · simp only [if_pos h3]
                cases ps with
                | nil =>
                  have b7 : ([] : List Char).length + s2.length < f := by
                    simp only [List.length_nil]; omega
                  have b8 : ([] : List Char).length + s2.length < g := by
                    simp only [List.length_nil]; omega
                  simp only [ih g [] s2 b7 b8]
                | cons p2 ps2 =>
                  simp only [List.length_cons] at hf hg
                  have b7 : ps2.length + s2.length < f := by omega
                  have b8 : ps2.length + s2.length < g := by omega
                  simp only [ih g ps2 s2 b7 b8]
              · simp only [if_neg h3, ih g ps s2 b5 b6]

theorem likeAux_big (f : Nat) (p s : List Char) (h : p.length + s.length < f) :
    likeAux f p s = likeMatches p s :=
  likeAux_mono f (p.length + s.length + 1) p s h (by omega)

theorem likeMatches_nil (s : List Char) : likeMatches [] s = s.isEmpty := rfl

theorem likeMatches_percent_all : ∀ s, likeMatches ['%'] s = true := by
  intro s
  induction s with
  | nil => decide
  | cons d s2 ih =>
    unfold likeMatches
    simp only [likeAux, reduceIte]
    rw [likeAux_big _ ['%'] s2
      (by simp only [List.length_cons, List.length_singleton]; omega)]
    simp [ih]

theorem likeMatches_lit_nil (c : Char) (ps : List Char) (h1 : c ≠ '%') :
    likeMatches (c :: ps) [] = false := by
  unfold likeMatches
  simp only [likeAux, if_neg h1]

theorem likeMatches_lit_cons (c : Char) (ps : List Char) (d : Char)
    (s2 : List Char) (h1 : c ≠ '%') (h2 : c ≠ '_') (h3 : c ≠ '\\') :
    likeMatches (c :: ps) (d :: s2) = (c == d && likeMatches ps s2) := by
  unfold likeMatches
  simp only [likeAux, if_neg h1, if_neg h2, if_neg h3]
  rw [likeAux_big _ ps s2 (by simp only [List.length_cons]; omega)]
  rfl

theorem likeMatches_lit_prefix : ∀ (lits : List Char),
    (∀ c ∈ lits, c ≠ '%' ∧ c ≠ '_' ∧ c ≠ '\\') →
    ∀ s, likeMatches (lits ++ ['%']) s = lits.isPrefixOf s := by
  intro lits
  induction lits with
  | nil =>
    intro _ s
    simpa using likeMatches_percent_all s
  | cons c rest ih =>
    intro hmeta s
    have hc := hmeta c (by simp)
    cases s with
    | nil =>
      rw [List.cons_append, likeMatches_lit_nil c (rest ++ ['%']) hc.1]
      rfl
    | cons d s2 =>
      rw [List.cons_append,
        likeMatches_lit_cons c (rest ++ ['%']) d s2 hc.1 hc.2.1 hc.2.2]
      simp only [List.isPrefixOf]
      rw [ih (fun x hx => hmeta x (by simp [hx])) s2]

theorem lowerStr_append (a b : String) :
    lowerStr (a ++ b) = lowerStr a ++ lowerStr b := by
  simp [lowerStr]

/-- For a pattern without `LIKE` metacharacters, the condition
`heading ILIKE pattern || ' %'` of `path_fetch_query` is exactly the spec's
token-boundary rule: the case-folded heading starts with the case-folded
pattern followed by a space. -/
theorem headingMatchesPattern_eq_spec (heading pattern : String)
    (h : noLikeMeta pattern = true) :
    headingMatchesPattern heading pattern = specTokenBoundaryMatch heading pattern := by
  unfold headingMatchesPattern specTokenBoundaryMatch
  rw [lowerStr_append, show lowerStr " %" = [' ', '%'] from rfl,
    show lowerStr pattern ++ [' ', '%'] = (lowerStr pattern ++ [' ']) ++ ['%'] by simp]
  apply likeMatches_lit_prefix
  intro c hc
  rcases List.mem_append.mp hc with h1 | h1
  · have h2 := List.all_eq_true.mp h c h1
    simp only [Bool.not_eq_eq_eq_not, Bool.not_true, Bool.or_eq_false_iff,
      beq_eq_false_iff_ne] at h2
    exact ⟨h2.1.1, h2.1.2, h2.2⟩
  · simp only [List.mem_singleton] at h1
    subst h1
    refine ⟨by decide, by decide, by decide⟩

/-! ### Theory of the ltree path order -/

theorem pathLtB_irrefl : ∀ p, pathLtB p p = false := by
  intro p
  induction p with
  | nil => rfl
  | cons x xs ih => simp [pathLtB, ih]

theorem pathLtB_trans : ∀ p q r, pathLtB p q = true → pathLtB q r = true →
    pathLtB p r = true := by
  intro p
  induction p with
  | nil =>
    intro q r _ hqr
    cases r with
    | nil => cases q <;> simp [pathLtB] at hqr
    | cons z zs => rfl
  | cons x xs ih =>
    intro q r hpq hqr
    cases q with
    | nil => simp [pathLtB] at hpq
    | cons y ys =>
      cases r with
      | nil => simp [pathLtB] at hqr
      | cons z zs =>
        simp only [pathLtB, Bool.or_eq_true, Bool.and_eq_true, beq_iff_eq,
          decide_eq_true_eq] at hpq hqr ⊢
        rcases hpq with h | ⟨he, h⟩ <;> rcases hqr with h2 | ⟨he2, h2⟩
        · left; omega
        · left; omega
        · left; omega
        · right; exact ⟨by omega, ih ys zs h h2⟩

theorem pathLtB_total : ∀ p q, pathLtB p q = true ∨ p = q ∨ pathLtB q p = true := by
  intro p
  induction p with
  | nil =>
    intro q
    cases q with
    | nil => right; left; rfl
    | cons y ys => left; rfl
  | cons x xs ih =>
    intro q
    cases q with
    | nil => right; right; rfl
    | cons y ys =>
      rcases Nat.lt_trichotomy x y with h | h | h
      · left; simp [pathLtB, h]
      · subst h
        rcases ih ys with h2 | h2 | h2
        · left; simp [pathLtB, h2]
        · right; left; rw [h2]
        · right; right; simp [pathLtB, h2]
      · right; right; simp [pathLtB, h]

theorem pathLtB_asymm : ∀ p q, pathLtB p q = true → pathLtB q p = false := by
  intro p q h
  by_contra hq
  rw [Bool.not_eq_false] at hq
  have h2 := pathLtB_trans p q p h hq
  rw [pathLtB_irrefl] at h2
  exact Bool.false_ne_true h2

theorem pathLeB_trans : ∀ p q r, pathLeB p q = true → pathLeB q r = true →
    pathLeB p r = true := by
  intro p q r h1 h2
  simp only [pathLeB, Bool.or_eq_true, beq_iff_eq] at h1 h2 ⊢
  rcases h1 with h1 | h1 <;> rcases h2 with h2 | h2
  · exact Or.inl (pathLtB_trans _ _ _ h1 h2)
  · subst h2; exact Or.inl h1
  · subst h1; exact Or.inl h2
  · subst h1; exact Or.inr h2

theorem pathLeB_total : ∀ p q, pathLeB p q = true ∨ pathLeB q p = true := by
  intro p q
  rcases pathLtB_total p q with h | h | h
  · left; simp [pathLeB, h]
  · left; simp [pathLeB, h]
  · right; simp [pathLeB, h]

theorem pathLtB_not_pathLeB : ∀ p q, pathLtB p q = true → pathLeB q p = false := by
  intro p q h
  simp only [pathLeB, Bool.or_eq_false_iff, beq_eq_false_iff_ne]
  refine ⟨pathLtB_asymm p q h, ?_⟩
  intro he
  subst he
  rw [pathLtB_irrefl] at h
  exact Bool.false_ne_true h

theorem isPrefixOf_pathLeB : ∀ p q : SectionPath, p.isPrefixOf q = true →
    pathLeB p q = true := by
  intro p
  induction p with
  | nil =>
    intro q _
    cases q with
    | nil => simp [pathLeB]
    | cons y ys => simp [pathLeB, pathLtB]
  | cons x xs ih =>
    intro q hp
    cases q with
    | nil => simp [List.isPrefixOf] at hp
    | cons y ys =>
      simp only [List.isPrefixOf, Bool.and_eq_true, beq_iff_eq] at hp
      obtain ⟨hxy, hp⟩ := hp
      subst hxy
      have h2 := ih ys hp
      simp only [pathLeB, Bool.or_eq_true, beq_iff_eq] at h2
      rcases h2 with h2 | h2
      · have h3 : pathLtB (x :: xs) (x :: ys) = true := by simp [pathLtB, h2]
        simp [pathLeB, h3]
      · subst h2; simp [pathLeB]

theorem isPrefixOf_ne_pathLtB : ∀ p q : SectionPath, p.isPrefixOf q = true →
    p ≠ q → pathLtB p q = true := by
  intro p
  induction p with
  | nil =>
    intro q hp hne
    cases q with
    | nil => exact absurd rfl hne
    | cons y ys => rfl
  | cons x xs ih =>
    intro q hp hne
    cases q with
    | nil => simp [List.isPrefixOf] at hp
    | cons y ys =>
      simp only [List.isPrefixOf, Bool.and_eq_true, beq_iff_eq] at hp
      obtain ⟨hxy, hp⟩ := hp
      subst hxy
      have hne2 : xs ≠ ys := fun h => hne (by rw [h])
      have h2 := ih ys hp hne2
      simp [pathLtB, h2]

theorem pathLeB_prefix_interval : ∀ (r a b c : SectionPath),
    pathLeB a b = true → pathLeB b c = true →
    r.isPrefixOf a = true → r.isPrefixOf c = true → r.isPrefixOf b = true := by
  intro r
  induction r with
  | nil => intro a b c _ _ _ _; cases b <;> rfl
  | cons x rs ih =>
    intro a b c hab hbc hra hrc
    cases a with
    | nil => simp [List.isPrefixOf] at hra
    | cons a0 as2 =>
    cases c with
    | nil => simp [List.isPrefixOf] at hrc
    | cons c0 cs =>
    simp only [List.isPrefixOf, Bool.and_eq_true, beq_iff_eq] at hra hrc
    obtain ⟨hxa, hra⟩ := hra
    obtain ⟨hxc, hrc⟩ := hrc
    subst hxa
    subst hxc
    cases b with
    | nil => simp [pathLeB, pathLtB] at hab
    | cons b0 bs =>
      simp only [pathLeB, pathLtB, Bool.or_eq_true, Bool.and_eq_true,
        beq_iff_eq, decide_eq_true_eq, List.cons.injEq] at hab hbc
      have hxb : x = b0 := by
        rcases hab with (h | ⟨he, _⟩) | ⟨he, _⟩ <;> rcases hbc with (h2 | ⟨he2, _⟩) | ⟨he2, _⟩ <;> omega
      subst hxb
      have hab2 : pathLeB as2 bs = true := by
        rcases hab with (h | ⟨_, h⟩) | ⟨_, h⟩
        · omega
        · simp [pathLeB, h]
        · simp [pathLeB, h]
      have hbc2 : pathLeB bs cs = true := by
        rcases hbc with (h | ⟨_, h⟩) | ⟨_, h⟩
        · omega
        · simp [pathLeB, h]
        · simp [pathLeB, h]
      simp [List.isPrefixOf, ih as2 bs cs hab2 hbc2 hra hrc]

/-! ### Properties of the two query stages and the renderer loop -/

theorem content_fetch_query_pairwise (secs : List StoredSection) (did : Nat)
    (paths : List SectionPath) :
    (content_fetch_query secs did paths).Pairwise rowle := by
  have h1 : IsTotal StoredSection rowle :=
    ⟨fun a b => pathLeB_total a.path b.path⟩
  have h2 : IsTrans StoredSection rowle :=
    ⟨fun a b c => pathLeB_trans a.path b.path c.path⟩
  exact List.sorted_insertionSort rowle _

theorem content_fetch_query_perm (secs : List StoredSection) (did : Nat)
    (paths : List SectionPath) :
    (content_fetch_query secs did paths).Perm
      (secs.filter (fun s =>
        s.document_id == did && paths.any (fun m => isDescendantOrSelf s.path m))) :=
  List.perm_insertionSort rowle _

theorem mem_content_fetch_query (secs : List StoredSection) (did : Nat)
    (paths : List SectionPath) (s : StoredSection) :
    s ∈ content_fetch_query secs did paths ↔
      s ∈ secs ∧ s.document_id = did ∧
        ∃ m ∈ paths, isDescendantOrSelf s.path m = true := by
  rw [(content_fetch_query_perm secs did paths).mem_iff, List.mem_filter]
  simp only [Bool.and_eq_true, beq_iff_eq, List.any_eq_true, and_assoc]

theorem content_fetch_query_nodup (secs : List StoredSection) (did : Nat)
    (paths : List SectionPath)
    (hpaths : secs.Pairwise (fun x y =>
      x.document_id = did → y.document_id = did → x.path ≠ y.path)) :
    (content_fetch_query secs did paths).Nodup := by
  have hfil := hpaths.filter (fun s =>
    s.document_id == did && paths.any (fun m => isDescendantOrSelf s.path m))
  have hne : (secs.filter (fun s =>
      s.document_id == did &&
        paths.any (fun m => isDescendantOrSelf s.path m))).Pairwise
      (fun x y => x ≠ y) := by
    refine hfil.imp_of_mem (fun ha hb h => ?_)
    have hda := (List.mem_filter.mp ha).2
    have hdb := (List.mem_filter.mp hb).2
    simp only [Bool.and_eq_true, beq_iff_eq] at hda hdb
    intro hexy
    exact h hda.1 hdb.1 (by rw [hexy])
  exact ((content_fetch_query_perm secs did paths).symm.nodup hne)

theorem mdLinesLoop_ok : ∀ (rows : List Row) (acc : List String),
    (∀ r ∈ rows, r.content.isSome = true) →
    mdLinesLoop rows acc = .ok (acc ++ rows.flatMap sectionBlock) := by
  intro rows
  induction rows with
  | nil => intro acc _; simp [mdLinesLoop]
  | cons r rs ih =>
    intro acc hsome
    have h1 := hsome r (by simp)
    match hr : r.content with
    | none => rw [hr] at h1; simp at h1
    | some c =>
      simp only [mdLinesLoop, hr]
      rw [ih _ (fun x hx => hsome x (by simp [hx]))]
      by_cases hc : (pyStrip c).isEmpty
      · simp [sectionBlock, hr, hc, mdHeading]
      · simp [sectionBlock, hr, hc, mdHeading]

/-! ### The claims -/

/-- C1, counterexample.  The pattern-matching stage is PostgreSQL
`ILIKE pattern || ' %'`, so `LIKE` wildcards inside a caller-supplied
pattern are interpreted: the pattern "5_2" selects a section with heading
"512 Foo" (`_` matches the "1"), although that heading does not begin,
case-insensitively, with "5_2" followed by a space.  Hence the claimed
"if and only if" fails for patterns containing `LIKE` metacharacters. -/
theorem C1_wildcard_counterexample :
    (⟨1, "512 Foo", 1, some "", [1]⟩ : StoredSection) ∈
        path_fetch_query [⟨1, "512 Foo", 1, some "", [1]⟩] 1 ["5_2"]
      ∧ specTokenBoundaryMatch "512 Foo" "5_2" = false := by
  exact ⟨by decide, by decide⟩

/-- C1 (amended): for every caller-supplied pattern containing no `LIKE`
metacharacter (`%`, `_`, backslash) — in particular every plain heading
number — the pattern-matching stage of `get_sections_content` selects a
section of the document iff, case-insensitively, its heading begins with
the pattern followed by a single space character; a section is selected
for the pattern list iff it is selected for at least one pattern (logical
OR).  The spec's concrete examples hold: pattern "5.2" matches heading
"5.2 Random Access" and not "5.20 Something", and "ABC" matches
"abc Title". -/
theorem C1_token_boundary_matching :
    (∀ (secs : List StoredSection) (did : Nat) (patterns : List String)
        (s : StoredSection),
      (∀ p ∈ patterns, noLikeMeta p = true) →
      (s ∈ path_fetch_query secs did patterns ↔
        s ∈ secs ∧ s.document_id = did ∧
          ∃ p ∈ patterns, specTokenBoundaryMatch s.heading p = true))
    ∧ headingMatchesPattern "5.2 Random Access" "5.2" = true
    ∧ headingMatchesPattern "5.20 Something" "5.2" = false
    ∧ headingMatchesPattern "abc Title" "ABC" = true := by
  refine ⟨?_, by decide, by decide, by decide⟩
  intro secs did patterns s hmeta
  unfold path_fetch_query
  rw [List.mem_filter]
  simp only [Bool.and_eq_true, beq_iff_eq, List.any_eq_true, and_assoc]
  constructor
  · rintro ⟨h1, h2, p, hp, hm⟩
    rw [headingMatchesPattern_eq_spec s.heading p (hmeta p hp)] at hm
    exact ⟨h1, h2, p, hp, hm⟩
  · rintro ⟨h1, h2, p, hp, hm⟩
    rw [← headingMatchesPattern_eq_spec s.heading p (hmeta p hp)] at hm
    exact ⟨h1, h2, p, hp, hm⟩

/-- Witness for `C1_token_boundary_matching`: the pattern list `["5.2"]`
is metacharacter-free, and the iff holds for section A of the demo store. -/
theorem C1_token_boundary_matching_witness :
    (∀ p ∈ ["5.2"], noLikeMeta p = true) ∧
      (secA ∈ path_fetch_query demoSections 1 ["5.2"] ↔
        secA ∈ demoSections ∧ secA.document_id = 1 ∧
          ∃ p ∈ ["5.2"], specTokenBoundaryMatch secA.heading p = true) :=
  ⟨by decide, C1_token_boundary_matching.1 demoSections 1 ["5.2"] secA (by decide)⟩

/-- C2: for a non-empty list `M` of matched paths, the subtree-expansion
stage (`content_fetch_query`) returns exactly the sections `s` of the
document for which some `m ∈ M` satisfies `isDescendantOrSelf s.path m`,
and — given the data invariant that paths are unique within a document —
each such section appears exactly once in the output, even when its path
lies below two different matched paths (one matched path an ancestor of
another). -/
theorem C2_subtree_expansion (secs : List StoredSection) (did : Nat)
    (M : List SectionPath) (hM : M ≠ [])
    (hpaths : secs.Pairwise (fun x y =>
      x.document_id = did → y.document_id = did → x.path ≠ y.path)) :
    (∀ s, s ∈ content_fetch_query secs did M ↔
        s ∈ secs ∧ s.document_id = did ∧
          ∃ m ∈ M, isDescendantOrSelf s.path m = true)
    ∧ ∀ s ∈ content_fetch_query secs did M,
        (content_fetch_query secs did M).count s = 1 := by
  refine ⟨fun s => mem_content_fetch_query secs did M s, fun s hs => ?_⟩
  exact List.count_eq_one_of_mem (content_fetch_query_nodup secs did M hpaths) hs

/-- Witness for `C2_subtree_expansion`: in the demo store with matched
paths `[[1], [1,1]]` (the second a descendant of the first), section A.1
lies below both matched paths and still appears exactly once. -/
theorem C2_subtree_expansion_witness :
    (([[1], [1, 1]] : List SectionPath) ≠ []) ∧
    demoSections.Pairwise (fun x y =>
      x.document_id = 1 → y.document_id = 1 → x.path ≠ y.path) ∧
    (content_fetch_query demoSections 1 [[1], [1, 1]]).count secA1 = 1 :=
  ⟨by decide, by decide,
    (C2_subtree_expansion demoSections 1 [[1], [1, 1]] (by decide) (by decide)).2
      secA1 (by decide)⟩

/-- C3: the output of the subtree-expansion stage is non-decreasing under
the ltree path order (document order); no section is ever followed by a
strict ancestor (parents precede all of their descendants); and the
sections below any given root path occupy a contiguous run of the output —
sibling subtrees are never interleaved. -/
theorem C3_document_order (secs : List StoredSection) (did : Nat)
    (paths : List SectionPath) :
    (content_fetch_query secs did paths).Pairwise rowle
    ∧ (content_fetch_query secs did paths).Pairwise
        (fun x y => ¬(y.path.isPrefixOf x.path = true ∧ y.path ≠ x.path))
    ∧ (∀ (a b c : StoredSection) (r : SectionPath),
        List.Sublist [a, b, c] (content_fetch_query secs did paths) →
        r.isPrefixOf a.path = true → r.isPrefixOf c.path = true →
        r.isPrefixOf b.path = true) := by
  have hp := content_fetch_query_pairwise secs did paths
  refine ⟨hp, ?_, ?_⟩
  · refine hp.imp (fun {x y} hxy => ?_)
    rintro ⟨hpre, hne⟩
    have hlt := isPrefixOf_ne_pathLtB y.path x.path hpre hne
    have hle := pathLtB_not_pathLeB y.path x.path hlt
    rw [rowle] at hxy
    rw [hxy] at hle
    exact absurd hle (by simp)
  · intro a b c r hsub hra hrc
    have h3 := hp.sublist hsub
    simp only [List.pairwise_cons, List.mem_cons, List.mem_singleton] at h3
    have rab : rowle a b := h3.1 b (Or.inl rfl)
    have rbc : rowle b c := h3.2.1 c (Or.inl rfl)
    exact pathLeB_prefix_interval r a.path b.path c.path rab rbc hra hrc

/-- Witness for `C3_document_order`: in the demo store with both top
sections matched, the chain A, A.1, B is a sublist of the output, the root
path `[]` bounds A and B, and the interval property gives that it also
bounds the middle element A.1. -/
theorem C3_document_order_witness :
    List.Sublist [secA, secA1, secB] (content_fetch_query demoSections 1 [[1], [2]])
    ∧ ([] : SectionPath).isPrefixOf secA1.path = true :=
  ⟨by decide,
    (C3_document_order demoSections 1 [[1], [2]]).2.2 secA secA1 secB []
      (by decide) (by decide) (by decide)⟩

/-- C4: on the spec's end-to-end scenario store (document "38.331" with
sections A, A.1 and B) and patterns `["5.2"]`, `get_sections_content`
returns exactly the expected markdown string, and section B's content
"Unrelated" does not occur anywhere in the output. -/
theorem C4_end_to_end :
    get_sections_content demoStore (some 1) [PyVal.str "5.2"] =
      .ok "# 38.331\n\n# 5.2 Random Access\n\nIntro text\n\n## 5.2.1 Contention\n\nDetail"
    ∧ containsSeq "Unrelated".toList
        "# 38.331\n\n# 5.2 Random Access\n\nIntro text\n\n## 5.2.1 Contention\n\nDetail".toList
      = false :=
  ⟨rfl, by decide⟩

/-- C5: the claim is right and the code is wrong.  The docstring of
`get_sections_content` promises `ValueError` for document-not-found and
no-match conditions, but the catch-all `except Exception` inside the
function re-raises every in-`try` failure — including those two expected
conditions — as the same bare `Exception` type used for unexpected
retrieval failures, so the route's error translation
(`except Exception → HTTP 500`) maps them to "internal error" rather than
"not found".  Only the second half of the claim holds: the wrapper does
preserve the original cause.  Below, both the unknown-document call and
the no-match call produce an error of type name "Exception" (not
"ValueError"), which the route maps to an internal error, while the
original `ValueError` survives only as the `__cause__`. -/
theorem C5_expected_conditions_not_distinguishable :
    ∃ e1 e2 : PyErr,
      get_sections_content demoStore (some 99) [PyVal.str "5.2"] = .error e1
      ∧ get_sections_content demoStore (some 1) [PyVal.str "9.9"] = .error e2
      ∧ e1.typeName = "Exception" ∧ e2.typeName = "Exception"
      ∧ e1.typeName ≠ "ValueError" ∧ e2.typeName ≠ "ValueError"
      ∧ routeTreatsAsInternalError e1 = true
      ∧ routeTreatsAsInternalError e2 = true
      ∧ (∃ c1, e1.cause = some c1 ∧ c1.typeName = "ValueError")
      ∧ (∃ c2, e2.cause = some c2 ∧ c2.typeName = "ValueError") := by
  refine ⟨_, _, rfl, rfl, rfl, rfl, by decide, by decide, rfl, rfl, ?_, ?_⟩
  · exact ⟨_, rfl, rfl⟩
  · exact ⟨_, rfl, rfl⟩

/-- C6, counterexample.  The renderer emits the content exactly as stored,
not trimmed: for content `" x "` the code's output keeps the surrounding
spaces (the final global strip only removes the trailing one), while the
spec's step-3 wording ("emit the trimmed content") would produce `"x"`. -/
theorem C6_untrimmed_content_counterexample :
    generate_markdown "D" [⟨"H", 1, some " x "⟩] = .ok "# D\n\n# H\n\n x"
    ∧ generate_markdown_spec "D" [⟨"H", 1, some " x "⟩] = "# D\n\n# H\n\nx"
    ∧ ("# D\n\n# H\n\n x" : String) ≠ "# D\n\n# H\n\nx" :=
  ⟨rfl, rfl, by decide⟩

/-- C6 (amended): for every section whose content is a string, trimming
decides only WHETHER content is emitted: if the content is non-empty after
trimming, the section contributes its heading line, a blank line, the
content exactly as stored (NOT trimmed), and a blank line; if the content
is empty or all-whitespace the section contributes only its heading line
plus the single separating blank line, and no empty content block is
produced.  Formally, the renderer output decomposes into the per-section
blocks `sectionBlock`. -/
theorem C6_content_emission (doc_name : String) (rows : List Row)
    (h : ∀ r ∈ rows, r.content.isSome = true) :
    generate_markdown doc_name rows =
      .ok (pyStrip (pyJoin "\n"
        (("# " ++ doc_name) :: "" :: rows.flatMap sectionBlock))) := by
  unfold generate_markdown
  rw [mdLinesLoop_ok rows _ h]
  rfl

/-- Witness for `C6_content_emission` on a one-section input with
whitespace-padded content. -/
theorem C6_content_emission_witness :
    (∀ r ∈ [(⟨"H", 1, some " x "⟩ : Row)], r.content.isSome = true) ∧
    generate_markdown "D" [⟨"H", 1, some " x "⟩] =
      .ok (pyStrip (pyJoin "\n"
        (("# " ++ "D") :: "" :: [(⟨"H", 1, some " x "⟩ : Row)].flatMap sectionBlock))) :=
  ⟨by decide, C6_content_emission "D" [⟨"H", 1, some " x "⟩] (by decide)⟩

/-- C7, counterexample.  `path_fetch_query` has no top-level restriction:
it filters only on document id and heading, so the nested level-2 section
with heading "5.2.1 Contention" (path depth 2) is selected by the exact
pattern "5.2.1". -/
theorem C7_nested_match_counterexample :
    nestedSection ∈ path_fetch_query [nestedSection] 1 ["5.2.1"]
    ∧ nestedSection.level = 2 ∧ nestedSection.path.length = 2 := by
  exact ⟨by decide, by decide, by decide⟩

/-- C7 (amended): the pattern-matching stage selects sections at ANY depth:
its selection predicate inspects only the document id and the heading text,
never the section's level or path, so a section is returned iff it belongs
to the document and its heading matches some pattern — whether or not it is
top-level. -/
theorem C7_matcher_depth_blind (secs : List StoredSection) (did : Nat)
    (patterns : List String) (s : StoredSection) :
    s ∈ path_fetch_query secs did patterns ↔
      s ∈ secs ∧ s.document_id = did ∧
        ∃ p ∈ patterns, headingMatchesPattern s.heading p = true := by
  unfold path_fetch_query
  rw [List.mem_filter]
  simp only [Bool.and_eq_true, beq_iff_eq, List.any_eq_true, and_assoc]

/-- C8: argument validation happens before the `try` block and issues no
query — for a missing document id, an empty pattern list, or a non-string
pattern element, `get_sections_content` raises the corresponding
`ValueError` for EVERY store (result independent of the store, so no query
can have reached it); a pattern list matching no heading raises the
no-match `ValueError` (propagated wrapped, with the original as cause), and
an unknown document id likewise raises the document-not-found
`ValueError`. -/
theorem C8_validation_and_failure_scenarios :
    (∀ (store : Store) (l : List PyVal),
      get_sections_content store none l =
        .error (.mk "ValueError" "Missing required argument: doc_id" none))
    ∧ (∀ (store : Store) (did : Nat),
      get_sections_content store (some did) [] =
        .error (.mk "ValueError" "Missing required argument: section_list" none))
    ∧ (∀ (store : Store) (did : Nat),
      get_sections_content store (some did) [PyVal.str "5.2", PyVal.nonStr] =
        .error (.mk "ValueError" "All section identifiers must be strings" none))
    ∧ get_sections_content demoStore (some 1) [PyVal.str "9.9"] =
        .error (.mk "Exception"
          "fetch_sections_content: Failed to retrieve sections: No sections found for document \x2738.331 1.0.0\x27 with the given parameter: [\x279.9\x27]"
          (some (.mk "ValueError"
            "No sections found for document \x2738.331 1.0.0\x27 with the given parameter: [\x279.9\x27]"
            none)))
    ∧ get_sections_content demoStore (some 99) [PyVal.str "5.2"] =
        .error (.mk "Exception"
          "fetch_sections_content: Failed to retrieve sections: Document with ID \x2799\x27 not found in the database."
          (some (.mk "ValueError"
            "Document with ID \x2799\x27 not found in the database."
            none))) :=
  ⟨fun _ _ => rfl, fun _ _ => rfl, fun _ _ => rfl, rfl, rfl⟩

/-- C9: `generate_markdown` is modelled as a pure Lean function because the
source function has no I/O or mutable state (its only side effect is error
logging on the failure path); two runs on the same document title and the
same ordered section sequence therefore return byte-identical results. -/
theorem C9_deterministic_rendering (doc_name : String) (rows : List Row) :
    generate_markdown doc_name rows = generate_markdown doc_name rows := rfl

/-- C10: a non-string (`None`) content value makes `generate_markdown`
raise (the `AttributeError` from `content.strip()`, wrapped as a generic
`Exception`) instead of treating the content as empty — even when a later
section is perfectly renderable — and the whole retrieval then fails:
`get_sections_content` on a store whose matched section has `NULL` content
propagates the doubly-wrapped error rather than returning any markdown. -/
theorem C10_none_content_raises :
    generate_markdown "38.331"
        [⟨"5.2 Broken", 1, none⟩, ⟨"5.2.1 Contention", 2, some "Detail"⟩] =
      .error (.mk "Exception"
        "`_generate_markdown`: Failed to generate markdown: \x27NoneType\x27 object has no attribute \x27strip\x27"
        (some pyAttrErrNoneStrip))
    ∧ get_sections_content noneContentStore (some 1) [PyVal.str "5.2"] =
      .error (.mk "Exception"
        "fetch_sections_content: Failed to retrieve sections: `_generate_markdown`: Failed to generate markdown: \x27NoneType\x27 object has no attribute \x27strip\x27"
        (some (.mk "Exception"
          "`_generate_markdown`: Failed to generate markdown: \x27NoneType\x27 object has no attribute \x27strip\x27"
          (some pyAttrErrNoneStrip)))) :=
  ⟨rfl, rfl⟩
